import Mathlib

/-!
Shallow embedding of src/Castillo3.py: a six-station manufacturing line
simulated as a discrete-event program on top of the simpy library.  Every
random sample the program draws (normalvariate, expovariate,
random.random) is supplied here as an oracle parameter, a rational number
standing for the sampled real; machine behaviour at those samples is then
translated directly from the source.  The bounded Resource primitive and
the event kernel live in the external simpy library (not under src/), so
their granting semantics are modelled from the spec where a claim needs
them; every such definition is marked in its doc comment.
-/

/-- Per-run statistics dictionary created in ManufacturingPlant.__init__
(Castillo3.py lines 98-106).  Station-indexed entries are functions from
the station id. -/
structure Stats where
  productos_completados : ℕ
  productos_rechazados : ℕ
  ocupacion_estaciones : Fin 6 → ℚ
  fallos_estaciones : Fin 6 → ℕ
  esperas_reabastecimiento : Fin 6 → ℕ
  tiempos_reparacion : List ℚ
  uso_dispositivo_suministro : ℚ

/-- Initial statistics of a fresh replication (lines 98-106). -/
def initStats : Stats :=
  ⟨0, 0, fun _ => 0, fun _ => 0, fun _ => 0, [], 0⟩

/-- Modelled from the spec: the bounded FIFO Resource of section 4.2.  Its
implementation is the external simpy library, not code under src/; only
the holder count and the wait-queue length are tracked here. -/
structure ResState where
  users : ℕ
  queue : ℕ
deriving DecidableEq

/-- Modelled from the spec: acquire grants a slot immediately when one is
free, otherwise the caller joins the FIFO wait queue. -/
def ResState.acquire (cap : ℕ) (s : ResState) : ResState :=
  if s.users < cap then { s with users := s.users + 1 }
  else { s with queue := s.queue + 1 }

/-- Modelled from the spec: release returns the held slot and, if waiters
exist, grants the head of the FIFO queue in the same step.  A release with
no current holder is a no-op (the program never performs one, since every
release in the source sits at the exit of the with-block that acquired). -/
def ResState.release (s : ResState) : ResState :=
  if 0 < s.users then
    (if 0 < s.queue then { users := s.users, queue := s.queue - 1 }
     else { users := s.users - 1, queue := s.queue })
  else s

/-- Operation performed against a single resource. -/
inductive ResOp where
  | acq : ResOp
  | rel : ResOp
deriving DecidableEq

def applyResOp (cap : ℕ) (s : ResState) : ResOp → ResState
  | ResOp.acq => ResState.acquire cap s
  | ResOp.rel => ResState.release s

/-- Run a sequence of operations against a fresh resource of the given
capacity (each station owns a capacity-1 resource, line 19; the shared
restocking pool has capacity 3, line 97). -/
def runResOps (cap : ℕ) (ops : List ResOp) : ResState :=
  ops.foldl (applyResOp cap) ⟨0, 0⟩

/-- Resource operations emitted by one WorkStation.process invocation:
operations on the station's own resource and on the shared restocking
pool. -/
inductive ROp where
  | sAcq : ROp
  | sRel : ROp
  | pAcq : ROp
  | pRel : ROp
deriving DecidableEq

/-- Combined state of the two resources an invocation can touch. -/
structure RState where
  station : ResState
  pool : ResState

def applyROp (rs : RState) : ROp → RState
  | ROp.sAcq => { rs with station := ResState.acquire 1 rs.station }
  | ROp.sRel => { rs with station := ResState.release rs.station }
  | ROp.pAcq => { rs with pool := ResState.acquire 3 rs.pool }
  | ROp.pRel => { rs with pool := ResState.release rs.pool }

def applyTrace (rs : RState) (tr : List ROp) : RState :=
  tr.foldl applyROp rs

/-- Oracle for one WorkStation.process invocation: the raw random samples
the code draws, in draw order — normalvariate(2, 0.5) at line 47,
normalvariate(4, 1) at line 31, random.random() at line 37, and the
expovariate(1/3) repair sample of lines 16 and 39. -/
structure WSOracle where
  restockDraw : ℚ
  processDraw : ℚ
  failDraw : ℚ
  repairDraw : ℚ

/-- Mutable per-station state: raw_material (line 11, an int starting at
25) and processed_count (line 17). -/
structure WorkStation where
  raw_material : ℤ
  processed_count : ℕ
deriving DecidableEq

/-- Result of one complete invocation: the updated station, the updated
statistics, the resource operations performed in order, and the timeout
durations yielded in order. -/
structure WSResult where
  ws : WorkStation
  stats : Stats
  rops : List ROp
  timeouts : List ℚ

/-- Failure probability table of line 15, indexed by station id. -/
def failure_probabilities : List ℚ :=
  [2/100, 1/100, 5/100, 15/100, 7/100, 6/100]

def failure_probability (i : Fin 6) : ℚ :=
  failure_probabilities.getD i.1 0

/-- WorkStation.restock (lines 43-50): acquire a slot of the shared pool,
accrue the clamped restock duration max(0, normalvariate(2, 0.5)) into the
device busy-time statistic (before the timeout, line 48), wait out the
timeout, reset raw_material to exactly 25 (line 50), and release the pool
slot at the exit of the with-block. -/
def WorkStation.restock (o : WSOracle) (ws : WorkStation) (st : Stats) : WSResult :=
  let restock_time := max 0 o.restockDraw
  { ws := { ws with raw_material := 25 },
    stats := { st with uso_dispositivo_suministro :=
        st.uso_dispositivo_suministro + restock_time },
    rops := [ROp.pAcq, ROp.pRel],
    timeouts := [restock_time] }

/-- While-loop of lines 25-28: while raw_material <= 0, count a resupply
wait for this station and run restock to completion.  The body always ends
with raw_material reset to 25, and the invoking product holds the
station's capacity-1 resource, so nothing can consume material between
that reset and the re-check of the guard: the loop runs at most one
iteration and is embedded as a single conditional. -/
def wsRestockLoop (i : Fin 6) (o : WSOracle) (ws : WorkStation) (st : Stats) : WSResult :=
  if ws.raw_material ≤ 0 then
    WorkStation.restock o ws
      { st with
        esperas_reabastecimiento :=
          Function.update st.esperas_reabastecimiento i (st.esperas_reabastecimiento i + 1) }
  else { ws := ws, stats := st, rops := [], timeouts := [] }

/-- WorkStation.process (lines 21-41): acquire the station resource, run
the restock loop, decrement raw_material, wait out the clamped processing
duration max(0, normalvariate(4, 1)), increment processed_count, accrue
the processing duration into the station busy-time, then, when the new
processed_count is a multiple of 5 and random.random() falls below the
station's failure probability, record the failure, append the repair
sample to the repair-time list and wait it out; finally release the
station resource at the exit of the with-block, on either path. -/
def WorkStation.process (i : Fin 6) (o : WSOracle) (ws : WorkStation) (st : Stats) : WSResult :=
  let r1 := wsRestockLoop i o ws st
  let ws1 : WorkStation := { r1.ws with raw_material := r1.ws.raw_material - 1 }
  let process_time := max 0 o.processDraw
  let ws2 : WorkStation := { ws1 with processed_count := ws1.processed_count + 1 }
  let st2 : Stats := { r1.stats with
    ocupacion_estaciones :=
      Function.update r1.stats.ocupacion_estaciones i (r1.stats.ocupacion_estaciones i + process_time) }
  if ws2.processed_count % 5 = 0 ∧ o.failDraw < failure_probability i then
    { ws := ws2,
      stats := { st2 with
        fallos_estaciones := Function.update st2.fallos_estaciones i
          (st2.fallos_estaciones i + 1),
        tiempos_reparacion := st2.tiempos_reparacion ++ [o.repairDraw] },
      rops := ROp.sAcq :: (r1.rops ++ [ROp.sRel]),
      timeouts := r1.timeouts ++ [process_time, o.repairDraw] }
  else
    { ws := ws2, stats := st2,
      rops := ROp.sAcq :: (r1.rops ++ [ROp.sRel]),
      timeouts := r1.timeouts ++ [process_time] }

/-- The two kinds of step that change a station's raw_material during a
run: the decrement of line 30, which executes only after the while loop of
line 25 has established raw_material > 0 with no yield point in between,
and the reset to 25 of line 50 when a restock delay completes. -/
inductive RMOp where
  | consume : RMOp
  | restock : RMOp
deriving DecidableEq

inductive RMStep : RMOp → ℤ → ℤ → Prop where
  | consume (m : ℤ) : 0 < m → RMStep RMOp.consume m (m - 1)
  | restock (m : ℤ) : RMStep RMOp.restock m 25

/-- raw_material values a station can hold at any point of a run: it
starts at 25 (line 11) and evolves only by RMStep transitions. -/
inductive RMReachable : ℤ → Prop where
  | init : RMReachable 25
  | step (op : RMOp) (m m2 : ℤ) : RMReachable m → RMStep op m m2 → RMReachable m2

/-- Product state (lines 59-60), extended with the order of station visits
and with the increments this product makes to the two plant-level
counters. -/
structure ProductState where
  stage : ℕ
  completed_stations : Finset ℕ
  visits : List ℕ
  completados : ℕ
  rechazados : ℕ
deriving DecidableEq

/-- Oracle for one product: queues k gives the wait-queue lengths of the
resources of stations 4 and 5 as the product observes them at its k-th
branch-phase iteration (lines 73-74), and rejectDraw is the
random.random() sample of line 88. -/
structure ProdOracle where
  queues : ℕ → ℕ × ℕ
  rejectDraw : ℚ

def initProduct : ProductState := ⟨0, ∅, [], 0, 0⟩

/-- Number of branch-phase visits already completed, used to index the
queue-length oracle. -/
def branchIndex (s : ProductState) : ℕ :=
  (s.completed_stations.filter (fun j => j = 4 ∨ j = 5)).card

/-- One iteration of the while loop of Product.process (lines 65-91):
sequential phase for stage < 4, otherwise the stage-4 branch that reads
the two queue lengths, picks station 4 on a tie or shorter queue when both
remain, picks the remaining one otherwise, and, once the completed set
reaches size 6, draws the rejection sample and increments exactly one
plant counter. -/
def prodStep (o : ProdOracle) (s : ProductState) : ProductState :=
  if s.completed_stations.card < 6 then
    if s.stage < 4 then
      { s with stage := s.stage + 1,
               completed_stations := insert s.stage s.completed_stations,
               visits := s.visits ++ [s.stage] }
    else if s.stage = 4 then
      let q := o.queues (branchIndex s)
      let station_id :=
        if 4 ∉ s.completed_stations ∧ 5 ∉ s.completed_stations then
          (if q.1 ≤ q.2 then 4 else 5)
        else if 4 ∉ s.completed_stations then 4 else 5
      let s2 := { s with
        completed_stations := insert station_id s.completed_stations,
        visits := s.visits ++ [station_id] }
      if s2.completed_stations.card = 6 then
        (if o.rejectDraw < 5/100 then { s2 with rechazados := s2.rechazados + 1 }
         else { s2 with completados := s2.completados + 1 })
      else s2
    else s
  else s

/-- State of a product after n iterations of its while loop; a product
abandoned at the horizon simply stops at some n. -/
def prodRun (o : ProdOracle) : ℕ → ProductState
  | 0 => initProduct
  | n + 1 => prodStep o (prodRun o n)

/-- Plant-level finish counters: the fold of lines 87-91 over the sequence
of random.random() samples drawn by the products that finish all six
stations, in finishing order; the result is the pair (completados,
rechazados). -/
def plantFinishes (draws : List ℚ) : ℕ × ℕ :=
  draws.foldl
    (fun cr d => if d < 5/100 then (cr.1, cr.2 + 1) else (cr.1 + 1, cr.2)) (0, 0)

/-- Defect rate of line 145: rejected divided by completed, 0 when the
completed counter is zero. -/
def tasa_productos_defectuosos (completados rechazados : ℕ) : ℚ :=
  if completados = 0 then 0 else (rechazados : ℚ) / (completados : ℚ)

/-- Mean resupply delay of line 148: device busy-time divided by the total
resupply-wait count, 0 when that count is zero. -/
def retraso_promedio (uso : ℚ) (esperasTotal : ℕ) : ℚ :=
  if esperasTotal = 0 then 0 else uso / (esperasTotal : ℚ)

/-- Mean repair duration of line 160: total repair time divided by the
number of repairs, 0 when the repair list is empty. -/
def tiempo_promedio_reparacion (reps : List ℚ) : ℚ :=
  if reps = [] then 0 else reps.sum / (reps.length : ℚ)

/-- Accumulated restocking-device busy time over a run (line 48): each
restock adds its clamped duration max(0, normalvariate(2, 0.5)) at restock
start; the per-replication record divides this by the 5000 horizon at line
159. -/
def restockUso (draws : List ℚ) : ℚ :=
  draws.foldl (fun acc d => acc + max 0 d) 0

/-- Busy time a station accrues over a run from its list of processing
records, each a pair of completion time and duration (lines 31-34); the
per-replication record divides this by the 5000 horizon at line 156. -/
def stationBusy (l : List (ℚ × ℚ)) : ℚ := (l.map Prod.snd).sum

/-- Modelled from the spec (sections 4.1-4.3): a valid processing record
list of one capacity-1 station.  Holding the station resource for the whole
processing step serializes the station, so each record's duration is the
clamped (hence nonnegative) sample and its completion time is no earlier
than the previous completion plus its duration; prev is the completion
time of the record preceding the list.  The busy-time accrual of line 34
runs exactly when the processing timeout completes, which the kernel only
fires at times up to the horizon. -/
def ValidSerial : ℚ → List (ℚ × ℚ) → Prop
  | _, [] => True
  | prev, p :: rest => 0 ≤ p.2 ∧ prev + p.2 ≤ p.1 ∧ ValidSerial p.1 rest

/-- Concrete product oracle used as a sample input: both branch queues
empty (a tie) and a rejection sample of 1, which is not below 5/100. -/
def sampleProdOracle : ProdOracle := ⟨fun _ => (0, 0), 1⟩

/-- Concrete workstation oracle used as a sample input. -/
def sampleWSOracle : WSOracle := ⟨2, 4, 1, 3⟩

/-- Concrete workstation state used as a sample input: the initial state
of line 11. -/
def sampleWS : WorkStation := ⟨25, 0⟩

/-! Helper lemmas. -/

theorem resUsers_foldl_le (cap : ℕ) (ops : List ResOp) :
    ∀ s : ResState, s.users ≤ cap → (ops.foldl (applyResOp cap) s).users ≤ cap := by
  induction ops with
  | nil => intro s hs; exact hs
  | cons op rest ih =>
    intro s hs
    refine ih (applyResOp cap s op) ?_
    cases op with
    | acq =>
      by_cases h : s.users < cap <;>
        simp [applyResOp, ResState.acquire, h] <;> omega
    | rel =>
      by_cases h1 : 0 < s.users <;> by_cases h2 : 0 < s.queue <;>
        simp [applyResOp, ResState.release, h1, h2] <;> omega

theorem rmReachable_bounds (m : ℤ) (h : RMReachable m) : 0 ≤ m ∧ m ≤ 25 := by
  induction h with
  | init => constructor <;> norm_num
  | step op m m2 hr hs ih =>
    cases hs with
    | consume _ hpos => omega
    | restock _ => omega

theorem validSerial_busy_nonneg (l : List (ℚ × ℚ)) :
    ∀ prev : ℚ, ValidSerial prev l → 0 ≤ stationBusy l := by
  induction l with
  | nil => intro prev _; simp [stationBusy]
  | cons p rest ih =>
    intro prev h
    simp only [ValidSerial] at h
    obtain ⟨h1, h2, h3⟩ := h
    have h4 := ih p.1 h3
    simp only [stationBusy, List.map_cons, List.sum_cons] at h4 ⊢
    linarith

theorem validSerial_busy_le (H : ℚ) (l : List (ℚ × ℚ)) :
    ∀ prev : ℚ, ValidSerial prev l → (∀ p ∈ l, p.1 ≤ H) → prev ≤ H →
      prev + stationBusy l ≤ H := by
  induction l with
  | nil => intro prev _ _ hp; simpa [stationBusy] using hp
  | cons p rest ih =>
    intro prev h hb hp
    simp only [ValidSerial] at h
    obtain ⟨h1, h2, h3⟩ := h
    have hpH : p.1 ≤ H := hb p (List.mem_cons_self p rest)
    have h4 := ih p.1 h3 (fun q hq => hb q (List.mem_cons_of_mem p hq)) hpH
    simp only [stationBusy, List.map_cons, List.sum_cons] at h4 ⊢
    linarith

theorem restock_foldl_ge (l : List ℚ) :
    ∀ acc : ℚ, acc ≤ l.foldl (fun a d => a + max 0 d) acc := by
  induction l with
  | nil => intro acc; simp
  | cons d rest ih =>
    intro acc
    have h1 : acc ≤ acc + max 0 d := by
      have := le_max_left (0 : ℚ) d
      linarith
    exact le_trans h1 (ih (acc + max 0 d))

theorem restockUso_nonneg (draws : List ℚ) : 0 ≤ restockUso draws := by
  simpa [restockUso] using restock_foldl_ge draws 0

theorem getLast_append_pair (l : List ℚ) (a b : ℚ) :
    (l ++ [a, b]).getLast? = some b := by
  rw [show l ++ [a, b] = (l ++ [a]) ++ [b] by simp, List.getLast?_concat]

theorem tasa_bounds (c r : ℕ) :
    0 ≤ tasa_productos_defectuosos c r ∧
      (r ≤ c → tasa_productos_defectuosos c r ≤ 1) := by
  unfold tasa_productos_defectuosos
  by_cases hc : c = 0
  · simp [hc]
  · constructor
    · rw [if_neg hc]
      positivity
    · intro hrc
      rw [if_neg hc]
      rw [div_le_one (by positivity)]
      exact_mod_cast hrc

theorem prodStep_pick4 (o : ProdOracle) (s : ProductState)
    (hstage : s.stage = 4) (hcard : s.completed_stations.card = 4)
    (h4 : 4 ∉ s.completed_stations) (h5 : 5 ∉ s.completed_stations)
    (hq : (o.queues (branchIndex s)).1 ≤ (o.queues (branchIndex s)).2) :
    prodStep o s = { s with completed_stations := insert 4 s.completed_stations,
                            visits := s.visits ++ [4] } := by
  simp [prodStep, hstage, hcard, h4, h5, hq, Finset.card_insert_of_not_mem]

theorem prodStep_pick5 (o : ProdOracle) (s : ProductState)
    (hstage : s.stage = 4) (hcard : s.completed_stations.card = 4)
    (h4 : 4 ∉ s.completed_stations) (h5 : 5 ∉ s.completed_stations)
    (hq : ¬ (o.queues (branchIndex s)).1 ≤ (o.queues (branchIndex s)).2) :
    prodStep o s = { s with completed_stations := insert 5 s.completed_stations,
                            visits := s.visits ++ [5] } := by
  simp [prodStep, hstage, hcard, h4, h5, hq, Finset.card_insert_of_not_mem]

theorem prodStep_only5_rej (o : ProdOracle) (s : ProductState)
    (hstage : s.stage = 4) (hcard : s.completed_stations.card = 5)
    (h4 : 4 ∈ s.completed_stations) (h5 : 5 ∉ s.completed_stations)
    (hr : o.rejectDraw < 5/100) :
    prodStep o s = { s with completed_stations := insert 5 s.completed_stations,
                            visits := s.visits ++ [5],
                            rechazados := s.rechazados + 1 } := by
  simp [prodStep, hstage, hcard, h4, h5, hr, Finset.card_insert_of_not_mem]

theorem prodStep_only5_acc (o : ProdOracle) (s : ProductState)
    (hstage : s.stage = 4) (hcard : s.completed_stations.card = 5)
    (h4 : 4 ∈ s.completed_stations) (h5 : 5 ∉ s.completed_stations)
    (hr : ¬ o.rejectDraw < 5/100) :
    prodStep o s = { s with completed_stations := insert 5 s.completed_stations,
                            visits := s.visits ++ [5],
                            completados := s.completados + 1 } := by
  simp [prodStep, hstage, hcard, h4, h5, hr, Finset.card_insert_of_not_mem]

theorem prodStep_only4_rej (o : ProdOracle) (s : ProductState)
    (hstage : s.stage = 4) (hcard : s.completed_stations.card = 5)
    (h4 : 4 ∉ s.completed_stations) (h5 : 5 ∈ s.completed_stations)
    (hr : o.rejectDraw < 5/100) :
    prodStep o s = { s with completed_stations := insert 4 s.completed_stations,
                            visits := s.visits ++ [4],
                            rechazados := s.rechazados + 1 } := by
  simp [prodStep, hstage, hcard, h4, h5, hr, Finset.card_insert_of_not_mem]

theorem prodStep_only4_acc (o : ProdOracle) (s : ProductState)
    (hstage : s.stage = 4) (hcard : s.completed_stations.card = 5)
    (h4 : 4 ∉ s.completed_stations) (h5 : 5 ∈ s.completed_stations)
    (hr : ¬ o.rejectDraw < 5/100) :
    prodStep o s = { s with completed_stations := insert 4 s.completed_stations,
                            visits := s.visits ++ [4],
                            completados := s.completados + 1 } := by
  simp [prodStep, hstage, hcard, h4, h5, hr, Finset.card_insert_of_not_mem]

theorem prodStep_of_done (o : ProdOracle) (s : ProductState)
    (h : s.completed_stations.card = 6) : prodStep o s = s := by
  simp [prodStep, h]

theorem prodRun_four (o : ProdOracle) :
    prodRun o 4 = ⟨4, insert 3 (insert 2 (insert 1 (insert 0 ∅))), [0, 1, 2, 3], 0, 0⟩ := rfl

theorem prodRun_five_pick4 (o : ProdOracle) (hq : (o.queues 0).1 ≤ (o.queues 0).2) :
    prodRun o 5 =
      ⟨4, insert 4 (insert 3 (insert 2 (insert 1 (insert 0 ∅)))), [0, 1, 2, 3, 4], 0, 0⟩ := by
  have hbi : branchIndex ⟨4, insert 3 (insert 2 (insert 1 (insert 0 ∅))), [0, 1, 2, 3], 0, 0⟩ = 0 := by
    decide
  show prodStep o (prodRun o 4) = _
  rw [prodRun_four, prodStep_pick4 o _ rfl (by decide) (by decide) (by decide) (by rw [hbi]; exact hq)]
  rfl

theorem prodRun_five_pick5 (o : ProdOracle) (hq : ¬ (o.queues 0).1 ≤ (o.queues 0).2) :
    prodRun o 5 =
      ⟨4, insert 5 (insert 3 (insert 2 (insert 1 (insert 0 ∅)))), [0, 1, 2, 3, 5], 0, 0⟩ := by
  have hbi : branchIndex ⟨4, insert 3 (insert 2 (insert 1 (insert 0 ∅))), [0, 1, 2, 3], 0, 0⟩ = 0 := by
    decide
  show prodStep o (prodRun o 4) = _
  rw [prodRun_four, prodStep_pick5 o _ rfl (by decide) (by decide) (by decide) (by rw [hbi]; exact hq)]
  rfl

theorem prodRun_six_45_rej (o : ProdOracle) (hq : (o.queues 0).1 ≤ (o.queues 0).2)
    (hr : o.rejectDraw < 5/100) :
    prodRun o 6 = ⟨4, insert 5 (insert 4 (insert 3 (insert 2 (insert 1 (insert 0 ∅))))),
      [0, 1, 2, 3, 4, 5], 0, 1⟩ := by
  show prodStep o (prodRun o 5) = _
  rw [prodRun_five_pick4 o hq,
    prodStep_only5_rej o _ rfl (by decide) (by decide) (by decide) hr]
  rfl

theorem prodRun_six_45_acc (o : ProdOracle) (hq : (o.queues 0).1 ≤ (o.queues 0).2)
    (hr : ¬ o.rejectDraw < 5/100) :
    prodRun o 6 = ⟨4, insert 5 (insert 4 (insert 3 (insert 2 (insert 1 (insert 0 ∅))))),
      [0, 1, 2, 3, 4, 5], 1, 0⟩ := by
  show prodStep o (prodRun o 5) = _
  rw [prodRun_five_pick4 o hq,
    prodStep_only5_acc o _ rfl (by decide) (by decide) (by decide) hr]
  rfl

theorem prodRun_six_54_rej (o : ProdOracle) (hq : ¬ (o.queues 0).1 ≤ (o.queues 0).2)
    (hr : o.rejectDraw < 5/100) :
    prodRun o 6 = ⟨4, insert 4 (insert 5 (insert 3 (insert 2 (insert 1 (insert 0 ∅))))),
      [0, 1, 2, 3, 5, 4], 0, 1⟩ := by
  show prodStep o (prodRun o 5) = _
  rw [prodRun_five_pick5 o hq,
    prodStep_only4_rej o _ rfl (by decide) (by decide) (by decide) hr]
  rfl

theorem prodRun_six_54_acc (o : ProdOracle) (hq : ¬ (o.queues 0).1 ≤ (o.queues 0).2)
    (hr : ¬ o.rejectDraw < 5/100) :
    prodRun o 6 = ⟨4, insert 4 (insert 5 (insert 3 (insert 2 (insert 1 (insert 0 ∅))))),
      [0, 1, 2, 3, 5, 4], 1, 0⟩ := by
  show prodStep o (prodRun o 5) = _
  rw [prodRun_five_pick5 o hq,
    prodStep_only4_acc o _ rfl (by decide) (by decide) (by decide) hr]
  rfl

/-! Claim theorems. -/

/-- Claim C3: for every resource and at every point of every run, the
number of concurrent holders never exceeds the capacity — at most 1 holder
of each station's resource and at most 3 holders of the shared restocking
pool.  Quantifying over all operation sequences covers every reachable
point of every run. -/
theorem resource_capacity_c3 (ops : List ResOp) :
    (runResOps 1 ops).users ≤ 1 ∧ (runResOps 3 ops).users ≤ 3 :=
  ⟨resUsers_foldl_le 1 ops ⟨0, 0⟩ (Nat.zero_le 1),
   resUsers_foldl_le 3 ops ⟨0, 0⟩ (Nat.zero_le 3)⟩

/-- Claim C5: at every point of every run a station's raw_material is a
non-negative integer, and a step sets it to exactly 25 only when that step
is the completion of a restock delay. -/
theorem raw_material_nonneg_c5 (m : ℤ) (h : RMReachable m) :
    0 ≤ m ∧ ∀ (op : RMOp) (m2 : ℤ), RMStep op m m2 → m2 = 25 → op = RMOp.restock := by
  have hb := rmReachable_bounds m h
  refine ⟨hb.1, ?_⟩
  intro op m2 hstep h25
  cases hstep with
  | consume _ hpos => exfalso; omega
  | restock _ => rfl

/-- Claim C5 witness at the initial raw_material value 25. -/
theorem raw_material_c5_witness :
    0 ≤ (25 : ℤ) ∧ ∀ (op : RMOp) (m2 : ℤ), RMStep op 25 m2 → m2 = 25 → op = RMOp.restock :=
  raw_material_nonneg_c5 25 RMReachable.init

/-- Claim C10: at every point of every run a station's raw_material is at
most 25: it starts there, consuming only decreases it, and a completed
restock resets it to exactly 25 rather than adding stock. -/
theorem raw_material_upper_c10 (m : ℤ) (h : RMReachable m) : m ≤ 25 :=
  (rmReachable_bounds m h).2

/-- Claim C10 witness at the initial raw_material value 25. -/
theorem raw_material_c10_witness : (25 : ℤ) ≤ 25 :=
  raw_material_upper_c10 25 RMReachable.init

/-- Fidelity check tying the RMStep abstraction to the embedded
WorkStation.process: one complete invocation maps a reachable raw_material
value to a reachable raw_material value (a restock step to 25 when the
material was exhausted, then one guarded consume step). -/
theorem process_preserves_reachable (i : Fin 6) (o : WSOracle) (ws : WorkStation) (st : Stats)
    (h : RMReachable ws.raw_material) :
    RMReachable (WorkStation.process i o ws st).ws.raw_material := by
  by_cases hm : ws.raw_material ≤ 0
  · have e : (WorkStation.process i o ws st).ws.raw_material = 25 - 1 := by
      by_cases hf : ((ws.processed_count + 1) % 5 = 0 ∧ o.failDraw < failure_probability i) <;>
        simp [WorkStation.process, wsRestockLoop, WorkStation.restock, hm, hf]
    rw [e]
    exact RMReachable.step RMOp.consume 25 (25 - 1)
      (RMReachable.step RMOp.restock ws.raw_material 25 h (RMStep.restock ws.raw_material))
      (RMStep.consume 25 (by norm_num))
  · have e : (WorkStation.process i o ws st).ws.raw_material = ws.raw_material - 1 := by
      by_cases hf : ((ws.processed_count + 1) % 5 = 0 ∧ o.failDraw < failure_probability i) <;>
        simp [WorkStation.process, wsRestockLoop, WorkStation.restock, hm, hf]
    rw [e]
    exact RMReachable.step RMOp.consume ws.raw_material (ws.raw_material - 1) h
      (RMStep.consume ws.raw_material (by omega))

/-- Claim C9: each of the three derived metrics — defect rate, mean repair
duration and mean resupply delay — is defined as 0 when its denominator is
zero, so the per-replication record never divides by zero. -/
theorem zero_guards_c9 (c r : ℕ) (uso : ℚ) (e : ℕ) (reps : List ℚ)
    (hc : c = 0) (he : e = 0) (hr : reps = []) :
    tasa_productos_defectuosos c r = 0 ∧ retraso_promedio uso e = 0 ∧
      tiempo_promedio_reparacion reps = 0 := by
  subst hc; subst he; subst hr
  simp [tasa_productos_defectuosos, retraso_promedio, tiempo_promedio_reparacion]

/-- Claim C9 witness: zero completed products, zero resupply waits and an
empty repair list all yield the metric value 0. -/
theorem zero_guards_c9_witness :
    tasa_productos_defectuosos 0 7 = 0 ∧ retraso_promedio 3 0 = 0 ∧
      tiempo_promedio_reparacion [] = 0 :=
  zero_guards_c9 0 7 3 0 [] rfl rfl rfl

/-- Claim C1 counterexample: in a run whose first three finished products
draw the rejection samples 0, 0 and 1, two products are rejected and one
completes, and the reported defect rate is 2, outside the interval [0, 1].
This refutes the claim that the rate is in [0, 1] for every possible
run. -/
theorem defect_rate_c1_counterexample :
    tasa_productos_defectuosos (plantFinishes [0, 0, 1]).1 (plantFinishes [0, 0, 1]).2 = 2 ∧
      ¬ tasa_productos_defectuosos (plantFinishes [0, 0, 1]).1 (plantFinishes [0, 0, 1]).2 ≤ 1 := by
  norm_num [plantFinishes, tasa_productos_defectuosos]

/-- Claim C1 (amended): the defect rate reported per replication is always
nonnegative, and it lies in [0, 1] whenever the run rejects at most as
many products as it completes; because the denominator is the completed
count rather than the total, the rate exceeds 1 in runs with more rejected
than completed products. -/
theorem defect_rate_bounds_c1 (draws : List ℚ)
    (h : (plantFinishes draws).2 ≤ (plantFinishes draws).1) :
    0 ≤ tasa_productos_defectuosos (plantFinishes draws).1 (plantFinishes draws).2 ∧
      tasa_productos_defectuosos (plantFinishes draws).1 (plantFinishes draws).2 ≤ 1 :=
  ⟨(tasa_bounds _ _).1, (tasa_bounds _ _).2 h⟩

/-- Claim C1 witness: a run with a single finished product that is not
rejected has defect rate between 0 and 1. -/
theorem defect_rate_c1_witness :
    0 ≤ tasa_productos_defectuosos (plantFinishes [1]).1 (plantFinishes [1]).2 ∧
      tasa_productos_defectuosos (plantFinishes [1]).1 (plantFinishes [1]).2 ≤ 1 :=
  defect_rate_bounds_c1 [1] (by norm_num [plantFinishes])

/-- Claim C2 counterexample: a run containing one restock whose sampled
duration is 10000 accrues 10000 into the restocking-device busy time (line
48 accrues at restock start, unclamped by the horizon), so the
restocking-device utilization written at line 159 is 2, outside [0, 1].
This refutes the claim that every utilization value is in [0, 1]. -/
theorem utilization_c2_counterexample :
    restockUso [10000] / 5000 = 2 ∧ ¬ restockUso [10000] / 5000 ≤ 1 := by
  norm_num [restockUso, max_def]

/-- Claim C2 (amended): each station's utilization lies in [0, 1] — its
busy-time is a sum of nonnegative durations of serialized processing
records completing within the horizon — while the restocking-device
utilization is only guaranteed nonnegative: up to three restocks accrue
concurrently and each accrues its full duration at restock start, so it
can exceed 1. -/
theorem utilization_bounds_c2 (l : List (ℚ × ℚ)) (draws : List ℚ)
    (h1 : ValidSerial 0 l) (h2 : ∀ p ∈ l, p.1 ≤ 5000) :
    (0 ≤ stationBusy l / 5000 ∧ stationBusy l / 5000 ≤ 1) ∧
      0 ≤ restockUso draws / 5000 := by
  have hn := validSerial_busy_nonneg l 0 h1
  have hl := validSerial_busy_le 5000 l 0 h1 h2 (by norm_num)
  refine ⟨⟨div_nonneg hn (by norm_num), ?_⟩,
    div_nonneg (restockUso_nonneg draws) (by norm_num)⟩
  rw [div_le_one (by norm_num)]
  linarith

/-- Claim C2 witness: a station with one processing record of duration 4
completing at time 4, and one restock sample of duration 1. -/
theorem utilization_c2_witness :
    (0 ≤ stationBusy [((4 : ℚ), (4 : ℚ))] / 5000 ∧
        stationBusy [((4 : ℚ), (4 : ℚ))] / 5000 ≤ 1) ∧
      0 ≤ restockUso [1] / 5000 :=
  utilization_bounds_c2 [((4 : ℚ), (4 : ℚ))] [1]
    (by norm_num [ValidSerial])
    (by intro p hp; rw [List.mem_singleton] at hp; rw [hp]; norm_num)

/-- Claim C4: every product visits stations 0, 1, 2, 3 in that order, then
makes exactly two branch-phase visits, one to each of stations 4 and 5;
the first is the station whose resource wait-queue is not longer at
decision time (ties favoring station 4) and the second is the remaining
one. -/
theorem product_routing_c4 (o : ProdOracle) :
    (prodRun o 6).visits =
      [0, 1, 2, 3] ++ (if (o.queues 0).1 ≤ (o.queues 0).2 then [4, 5] else [5, 4]) := by
  by_cases hq : (o.queues 0).1 ≤ (o.queues 0).2
  · by_cases hr : o.rejectDraw < 5/100
    · rw [prodRun_six_45_rej o hq hr]; simp [hq]
    · rw [prodRun_six_45_acc o hq hr]; simp [hq]
  · by_cases hr : o.rejectDraw < 5/100
    · rw [prodRun_six_54_rej o hq hr]; simp [hq]
    · rw [prodRun_six_54_acc o hq hr]; simp [hq]

/-- Claim C4 witness at the sample oracle, whose queue lengths tie. -/
theorem product_routing_c4_witness :
    (prodRun sampleProdOracle 6).visits =
      [0, 1, 2, 3] ++
        (if (sampleProdOracle.queues 0).1 ≤ (sampleProdOracle.queues 0).2 then [4, 5]
         else [5, 4]) :=
  product_routing_c4 sampleProdOracle

/-- Claim C7: a product whose completed set reaches all 6 station ids
increments exactly one plant counter exactly once — the rejected counter
when its rejection sample falls below 5/100, the completed counter
otherwise — and it stays terminal afterwards, while a product stopped
before its sixth loop iteration (abandoned at the horizon) increments
neither counter. -/
theorem product_counters_c7 (o : ProdOracle) (k : ℕ) (hk : k < 6) :
    ((prodRun o 6).completados + (prodRun o 6).rechazados = 1) ∧
      (o.rejectDraw < 5/100 →
        (prodRun o 6).rechazados = 1 ∧ (prodRun o 6).completados = 0) ∧
      (¬ o.rejectDraw < 5/100 →
        (prodRun o 6).completados = 1 ∧ (prodRun o 6).rechazados = 0) ∧
      ((prodRun o k).completados = 0 ∧ (prodRun o k).rechazados = 0) ∧
      (∀ n : ℕ, prodRun o (6 + n) = prodRun o 6) := by
  have hcomp : (prodRun o 6).completados = if o.rejectDraw < 5/100 then 0 else 1 := by
    by_cases hq : (o.queues 0).1 ≤ (o.queues 0).2 <;>
      by_cases hr : o.rejectDraw < 5/100 <;>
      simp [prodRun_six_45_rej, prodRun_six_45_acc, prodRun_six_54_rej, prodRun_six_54_acc,
        hq, hr]
  have hrech : (prodRun o 6).rechazados = if o.rejectDraw < 5/100 then 1 else 0 := by
    by_cases hq : (o.queues 0).1 ≤ (o.queues 0).2 <;>
      by_cases hr : o.rejectDraw < 5/100 <;>
      simp [prodRun_six_45_rej, prodRun_six_45_acc, prodRun_six_54_rej, prodRun_six_54_acc,
        hq, hr]
  have hcard : (prodRun o 6).completed_stations.card = 6 := by
    by_cases hq : (o.queues 0).1 ≤ (o.queues 0).2
    · by_cases hr : o.rejectDraw < 5/100
      · rw [prodRun_six_45_rej o hq hr]; decide
      · rw [prodRun_six_45_acc o hq hr]; decide
    · by_cases hr : o.rejectDraw < 5/100
      · rw [prodRun_six_54_rej o hq hr]; decide
      · rw [prodRun_six_54_acc o hq hr]; decide
  refine ⟨?_, ?_, ?_, ?_, ?_⟩
  · by_cases hr : o.rejectDraw < 5/100 <;> simp [hcomp, hrech, hr]
  · intro hr; simp [hcomp, hrech, hr]
  · intro hr; simp [hcomp, hrech, hr]
  · interval_cases k
    · exact ⟨rfl, rfl⟩
    · exact ⟨rfl, rfl⟩
    · exact ⟨rfl, rfl⟩
    · exact ⟨rfl, rfl⟩
    · exact ⟨rfl, rfl⟩
    · by_cases hq : (o.queues 0).1 ≤ (o.queues 0).2
      · rw [prodRun_five_pick4 o hq]; exact ⟨rfl, rfl⟩
      · rw [prodRun_five_pick5 o hq]; exact ⟨rfl, rfl⟩
  · intro n
    induction n with
    | zero => rfl
    | succ n ih =>
      show prodStep o (prodRun o (6 + n)) = prodRun o 6
      rw [ih, prodStep_of_done o _ hcard]

/-- Claim C7 witness at the sample oracle (rejection sample 1, not below
5/100) and at the abandoned-run length 0. -/
theorem product_counters_c7_witness :
    ((prodRun sampleProdOracle 6).completados + (prodRun sampleProdOracle 6).rechazados = 1) ∧
      (sampleProdOracle.rejectDraw < 5/100 →
        (prodRun sampleProdOracle 6).rechazados = 1 ∧
          (prodRun sampleProdOracle 6).completados = 0) ∧
      (¬ sampleProdOracle.rejectDraw < 5/100 →
        (prodRun sampleProdOracle 6).completados = 1 ∧
          (prodRun sampleProdOracle 6).rechazados = 0) ∧
      ((prodRun sampleProdOracle 0).completados = 0 ∧
        (prodRun sampleProdOracle 0).rechazados = 0) ∧
      (∀ n : ℕ, prodRun sampleProdOracle (6 + n) = prodRun sampleProdOracle 6) :=
  product_counters_c7 sampleProdOracle 0 (by norm_num)

/-- Claim C6: every complete WorkStation.process invocation performs
exactly one acquisition and exactly one release of the station resource,
the release being its last resource operation on every path (failure or
not, restock or not); every complete restock acquires and releases one
pool slot; and replaying the emitted operations against an idle station
resource and a pool with pu holders and no waiters leaves both holder
counts as they were. -/
theorem resource_released_c6 (i : Fin 6) (o : WSOracle) (ws : WorkStation) (st : Stats)
    (pu : ℕ) (hpu : pu < 3) :
    ((WorkStation.process i o ws st).rops.count ROp.sAcq = 1 ∧
      (WorkStation.process i o ws st).rops.count ROp.sRel = 1 ∧
      (WorkStation.process i o ws st).rops.getLast? = some ROp.sRel) ∧
      (WorkStation.restock o ws st).rops = [ROp.pAcq, ROp.pRel] ∧
      (applyTrace ⟨⟨0, 0⟩, ⟨pu, 0⟩⟩ (WorkStation.process i o ws st).rops).station.users = 0 ∧
      (applyTrace ⟨⟨0, 0⟩, ⟨pu, 0⟩⟩ (WorkStation.process i o ws st).rops).pool.users = pu := by
  have hrops : (WorkStation.process i o ws st).rops =
      ROp.sAcq :: ((if ws.raw_material ≤ 0 then [ROp.pAcq, ROp.pRel] else []) ++ [ROp.sRel]) := by
    by_cases hm : ws.raw_material ≤ 0 <;>
      by_cases hf : ((ws.processed_count + 1) % 5 = 0 ∧ o.failDraw < failure_probability i) <;>
      simp [WorkStation.process, wsRestockLoop, WorkStation.restock, hm, hf]
  rw [hrops]
  by_cases hm : ws.raw_material ≤ 0 <;>
    simp [hm, applyTrace, applyROp, ResState.acquire, ResState.release, hpu, Nat.succ_pos,
      WorkStation.restock]

/-- Claim C6 witness at station 2, the sample oracle and station state,
fresh statistics, and an idle pool. -/
theorem resource_released_c6_witness :
    ((WorkStation.process 2 sampleWSOracle sampleWS initStats).rops.count ROp.sAcq = 1 ∧
      (WorkStation.process 2 sampleWSOracle sampleWS initStats).rops.count ROp.sRel = 1 ∧
      (WorkStation.process 2 sampleWSOracle sampleWS initStats).rops.getLast? = some ROp.sRel) ∧
      (WorkStation.restock sampleWSOracle sampleWS initStats).rops = [ROp.pAcq, ROp.pRel] ∧
      (applyTrace ⟨⟨0, 0⟩, ⟨0, 0⟩⟩
          (WorkStation.process 2 sampleWSOracle sampleWS initStats).rops).station.users = 0 ∧
      (applyTrace ⟨⟨0, 0⟩, ⟨0, 0⟩⟩
          (WorkStation.process 2 sampleWSOracle sampleWS initStats).rops).pool.users = 0 :=
  resource_released_c6 2 sampleWSOracle sampleWS initStats 0 (by norm_num)

/-- Claim C8: a WorkStation.process invocation records a failure exactly
when the incremented processed_count is a multiple of 5 and the uniform
sample falls below the station's fixed failure probability, drawn from the
table 0.02, 0.01, 0.05, 0.15, 0.07, 0.06 for station ids 0-5; on a
failure the repair sample is appended to the repair-time list and is the
last duration the invocation suspends on before returning, and otherwise
the repair-time list is unchanged. -/
theorem station_failure_c8 (i : Fin 6) (o : WSOracle) (ws : WorkStation) (st : Stats) :
    ((WorkStation.process i o ws st).stats.fallos_estaciones i = st.fallos_estaciones i + 1 ↔
      ((ws.processed_count + 1) % 5 = 0 ∧ o.failDraw < failure_probability i)) ∧
      (((ws.processed_count + 1) % 5 = 0 ∧ o.failDraw < failure_probability i) →
        (WorkStation.process i o ws st).stats.tiempos_reparacion =
            st.tiempos_reparacion ++ [o.repairDraw] ∧
          (WorkStation.process i o ws st).timeouts.getLast? = some o.repairDraw) ∧
      (¬ ((ws.processed_count + 1) % 5 = 0 ∧ o.failDraw < failure_probability i) →
        (WorkStation.process i o ws st).stats.tiempos_reparacion = st.tiempos_reparacion) ∧
      failure_probabilities = [2/100, 1/100, 5/100, 15/100, 7/100, 6/100] := by
  by_cases hm : ws.raw_material ≤ 0 <;>
    by_cases hf : ((ws.processed_count + 1) % 5 = 0 ∧ o.failDraw < failure_probability i) <;>
    simp [WorkStation.process, wsRestockLoop, WorkStation.restock, hm, hf,
      Function.update_same, List.getLast?, failure_probabilities]

/-- Claim C8 witness at station 3 (failure probability 15/100), a station
about to process its 5th product, and a uniform sample 1/10 below the
probability, so a failure is recorded and the repair sample 3 is appended
and suspended on. -/
theorem station_failure_c8_witness :
    ((WorkStation.process 3 ⟨2, 4, 1/10, 3⟩ ⟨25, 4⟩ initStats).stats.fallos_estaciones 3 =
        initStats.fallos_estaciones 3 + 1 ↔
      (((⟨25, 4⟩ : WorkStation).processed_count + 1) % 5 = 0 ∧
        (⟨2, 4, 1/10, 3⟩ : WSOracle).failDraw < failure_probability 3)) ∧
      ((((⟨25, 4⟩ : WorkStation).processed_count + 1) % 5 = 0 ∧
          (⟨2, 4, 1/10, 3⟩ : WSOracle).failDraw < failure_probability 3) →
        (WorkStation.process 3 ⟨2, 4, 1/10, 3⟩ ⟨25, 4⟩ initStats).stats.tiempos_reparacion =
            initStats.tiempos_reparacion ++ [(⟨2, 4, 1/10, 3⟩ : WSOracle).repairDraw] ∧
          (WorkStation.process 3 ⟨2, 4, 1/10, 3⟩ ⟨25, 4⟩ initStats).timeouts.getLast? =
            some (⟨2, 4, 1/10, 3⟩ : WSOracle).repairDraw) ∧
      (¬ (((⟨25, 4⟩ : WorkStation).processed_count + 1) % 5 = 0 ∧
          (⟨2, 4, 1/10, 3⟩ : WSOracle).failDraw < failure_probability 3) →
        (WorkStation.process 3 ⟨2, 4, 1/10, 3⟩ ⟨25, 4⟩ initStats).stats.tiempos_reparacion =
          initStats.tiempos_reparacion) ∧
      failure_probabilities = [2/100, 1/100, 5/100, 15/100, 7/100, 6/100] :=
  station_failure_c8 3 ⟨2, 4, 1/10, 3⟩ ⟨25, 4⟩ initStats
